import Mathlib

/-!
Verification development for `pystiche/enc/models/utils.py`.

The module under study wraps a pre-trained backbone behind a multi-layer
encoder interface.  Its logic is: selecting a download URL keyed by framework
(`select_url`), remapping the keys of an incoming weight dictionary through a
name map built at construction time (`_map_state_dict_keys`), and loading the
remapped dictionary through the underlying load routine while updating two
descriptive fields (`load_state_dict`, `load_state_dict_from_url`).

Python dictionaries are embedded as association lists in insertion order with
pairwise-distinct keys; tensors are abstracted as integers (only identity of
values matters to the properties below).  The underlying load routine
(`torch.nn.Module.load_state_dict`) is not part of this repository and is
modelled from the specification's description of it.
-/

/-- Tensors are abstracted: only value identity matters for key remapping. -/
abbrev Tensor := Int

/-- Lookup in an association list, first match wins.  This embeds Python's
`d[k]` / `k in d` on dictionaries. -/
def dictFind {K α : Type} [DecidableEq K] : List (K × α) → K → Option α
  | [], _ => none
  | p :: rest, k => if p.1 = k then some p.2 else dictFind rest k

/-- Assignment `d[k] = v` on a Python dictionary: overwrites in place if the
key is present, otherwise appends at the end (insertion order). -/
def dictInsert {K α : Type} [DecidableEq K] (d : List (K × α)) (k : K) (v : α) :
    List (K × α) :=
  if d.any (fun p => p.1 = k) then
    d.map (fun p => if p.1 = k then (k, v) else p)
  else
    d ++ [(k, v)]

/-- `select_url` from `utils.py`: returns `urls[key]`, and on a missing key
raises a RuntimeError whose message is
`"No URL is available for\n\n" ++ format key`, where `format` defaults to
plain string conversion (`str`). -/
def select_url {K : Type} [DecidableEq K] [ToString K]
    (urls : List (K × String)) (key : K) (format : Option (K → String)) :
    Except String String :=
  let fmt := match format with
    | none => fun k => toString k
    | some f => f
  match dictFind urls key with
  | some url => Except.ok url
  | none => Except.error ("No URL is available for\n\n" ++ fmt key)

/-- The named tuple `_IncompatibleKeys` returned by the load routines. -/
structure IncompatibleKeys where
  missing_keys : List String
  unexpected_keys : List String
  deriving Repr, DecidableEq

/-- State of a `ModelMultiLayerEncoder`: the two descriptive fields mutated on
load (`pretrained`, `framework`), the name map `_state_dict_key_map` built at
construction, the encoder's own parameter keys, and the current parameter
values (both inherited from the module tree). -/
structure ModelMultiLayerEncoder where
  pretrained : Bool
  framework : String
  state_dict_key_map : List (String × String)
  ownKeys : List String
  params : List (String × Tensor)
  deriving Repr, DecidableEq

namespace ModelMultiLayerEncoder

/-- Tail of `_map_state_dict_keys`: walk the incoming items in encounter
order; a key present in the name map is rewritten (Python dictionary
assignment on the accumulator), a key absent from it is appended to the
unexpected list. -/
def mapKeysAux (keyMap : List (String × String)) :
    List (String × Tensor) → List (String × Tensor) → List String →
    List (String × Tensor) × List String
  | [], racc, uacc => (racc, uacc)
  | p :: rest, racc, uacc =>
    match dictFind keyMap p.1 with
    | some k' => mapKeysAux keyMap rest (dictInsert racc k' p.2) uacc
    | none => mapKeysAux keyMap rest racc (uacc ++ [p.1])

/-- `_map_state_dict_keys`: remap the keys of `state_dict` through the
encoder's name map, collecting keys absent from the map as unexpected. -/
def map_state_dict_keys (e : ModelMultiLayerEncoder)
    (state_dict : List (String × Tensor)) :
    List (String × Tensor) × List String :=
  mapKeysAux e.state_dict_key_map state_dict [] []

/-- Rewriting of a single dictionary entry: the key is replaced by its image
under the name map (left unchanged when unmapped, a case only used under an
`isSome` guard). -/
def rewriteKey (keyMap : List (String × String)) (p : String × Tensor) :
    String × Tensor :=
  ((dictFind keyMap p.1).getD p.1, p.2)

/-- The entries of a dictionary whose keys the name map covers, with keys
rewritten to their images.  `map_state_dict_keys` computes exactly this when
the rewritten keys do not collide. -/
def mappedPart (keyMap : List (String × String))
    (sd : List (String × Tensor)) : List (String × Tensor) :=
  (sd.filter (fun p => (dictFind keyMap p.1).isSome)).map (rewriteKey keyMap)

/-- Keys of the encoder's own parameters that the given dictionary lacks, as
reported missing by the underlying load routine. -/
def superMissing (ownKeys : List String) (state_dict : List (String × Tensor)) :
    List String :=
  ownKeys.filter (fun k => (dictFind state_dict k).isNone)

/-- Keys of the given dictionary that the encoder's parameters lack, as
reported unexpected by the underlying load routine. -/
def superUnexpected (ownKeys : List String)
    (state_dict : List (String × Tensor)) : List String :=
  (state_dict.map Prod.fst).filter (fun k => ¬ k ∈ ownKeys)

/-- Parameter values after the underlying load routine copied the matching
entries of the dictionary over the encoder's parameters. -/
def superParams (params state_dict : List (String × Tensor)) :
    List (String × Tensor) :=
  params.map (fun p =>
    match dictFind state_dict p.1 with
    | some v => (p.1, v)
    | none => p)

/-- Modelled from the spec: the underlying load routine
(`torch.nn.Module.load_state_dict`, not part of this repository).  It reports
encoder parameter keys absent from the dictionary as missing and dictionary
keys absent from the encoder as unexpected, copies values for matching keys
into the parameters, and with `strict` enabled fails whenever missing or
unexpected keys exist; in non-strict mode the lists are returned instead. -/
def superLoadStateDict (ownKeys : List String) (params : List (String × Tensor))
    (state_dict : List (String × Tensor)) (strict : Bool) :
    Except String (List (String × Tensor) × IncompatibleKeys) :=
  if strict ∧ (superMissing ownKeys state_dict ≠ [] ∨
      superUnexpected ownKeys state_dict ≠ []) then
    Except.error "Error(s) in loading state_dict"
  else
    Except.ok (superParams params state_dict,
      ⟨superMissing ownKeys state_dict, superUnexpected ownKeys state_dict⟩)

/-- `load_state_dict`: optionally remap the keys, hand the result to the
underlying load routine, extend the unexpected keys it reports with the ones
detected locally, and on success set `pretrained` to true and record the
`framework` argument (whose Python default is `"unknown"`).  An error raised
by the underlying routine propagates before the field updates, so the encoder
is returned unchanged in that case. -/
def load_state_dict (e : ModelMultiLayerEncoder)
    (state_dict : List (String × Tensor)) (strict mapNames : Bool)
    (framework : String) :
    ModelMultiLayerEncoder × Except String IncompatibleKeys :=
  match superLoadStateDict e.ownKeys e.params
      (if mapNames then (e.map_state_dict_keys state_dict).1 else state_dict)
      strict with
  | Except.error msg => (e, Except.error msg)
  | Except.ok (newParams, keys) =>
    ({ e with params := newParams, pretrained := true, framework := framework },
     Except.ok ⟨keys.missing_keys,
       keys.unexpected_keys ++
         (if mapNames then (e.map_state_dict_keys state_dict).2 else [])⟩)

/-- The Python defaults of `load_state_dict`: `strict=True`, `map_names=True`,
`framework="unknown"`. -/
def load_state_dict_defaults (e : ModelMultiLayerEncoder)
    (state_dict : List (String × Tensor)) :
    ModelMultiLayerEncoder × Except String IncompatibleKeys :=
  e.load_state_dict state_dict true true "unknown"

/-- `load_state_dict_from_url`: resolve the URL for `framework` via the
abstract `state_dict_url` (which may fail with the "no URL" error), download
the dictionary (abstracted as a function of the URL), and load it with the
same `framework`.  Python defaults: `strict=True`, `map_names=True`. -/
def load_state_dict_from_url (e : ModelMultiLayerEncoder)
    (stateDictUrl : String → Except String String)
    (download : String → List (String × Tensor))
    (framework : String) (strict mapNames : Bool) :
    ModelMultiLayerEncoder × Except String Unit :=
  match stateDictUrl framework with
  | Except.error msg => (e, Except.error msg)
  | Except.ok url =>
    ((e.load_state_dict (download url) strict mapNames framework).1,
     match (e.load_state_dict (download url) strict mapNames framework).2 with
      | Except.error msg => Except.error msg
      | Except.ok _ => Except.ok ())

/-- `__init__`: record the flags, build the name map from the model-specific
table returned by `collect_modules` (abstracted as the `keyMap` argument,
with the module-derived parameter keys and values), and when `pretrained` is
set load the builtin weights for `framework` via `load_state_dict_from_url`.
Python defaults: `pretrained=True`, `framework="torch"`. -/
def construct (keyMap : List (String × String)) (ownKeys : List String)
    (params : List (String × Tensor)) (pretrained : Bool) (framework : String)
    (stateDictUrl : String → Except String String)
    (download : String → List (String × Tensor)) : ModelMultiLayerEncoder :=
  let e : ModelMultiLayerEncoder :=
    { pretrained := pretrained, framework := framework,
      state_dict_key_map := keyMap, ownKeys := ownKeys, params := params }
  if pretrained then
    (e.load_state_dict_from_url stateDictUrl download framework true true).1
  else
    e

end ModelMultiLayerEncoder

/-! ## Lemmas about association-list dictionaries -/

theorem dictFind_isSome_iff {K α : Type} [DecidableEq K]
    (d : List (K × α)) (k : K) :
    (dictFind d k).isSome ↔ k ∈ d.map Prod.fst := by
  induction d with
  | nil => simp [dictFind]
  | cons p rest ih =>
    by_cases h : p.1 = k
    · simp [dictFind, h]
    · simp only [dictFind, if_neg h, List.map_cons, List.mem_cons, ih]
      constructor
      · exact Or.inr
      · rintro (rfl | hk)
        · exact absurd rfl h
        · exact hk

theorem dictFind_eq_none_iff {K α : Type} [DecidableEq K]
    (d : List (K × α)) (k : K) :
    dictFind d k = none ↔ k ∉ d.map Prod.fst := by
  rw [← dictFind_isSome_iff, Option.not_isSome_iff_eq_none]

theorem mem_of_dictFind_eq_some {K α : Type} [DecidableEq K]
    {d : List (K × α)} {k : K} {v : α} (h : dictFind d k = some v) :
    (k, v) ∈ d := by
  induction d with
  | nil => simp [dictFind] at h
  | cons p rest ih =>
    obtain ⟨a, b⟩ := p
    simp only [dictFind] at h
    by_cases hk : a = k
    · rw [if_pos hk] at h
      injection h with hb
      subst hk
      subst hb
      exact List.mem_cons_self _ _
    · rw [if_neg hk] at h
      exact List.mem_cons_of_mem _ (ih h)

theorem dictFind_injective {K α : Type} [DecidableEq K]
    {d : List (K × α)} (hv : (d.map Prod.snd).Nodup)
    {k₁ k₂ : K} {v : α}
    (h₁ : dictFind d k₁ = some v) (h₂ : dictFind d k₂ = some v) : k₁ = k₂ := by
  induction d with
  | nil => simp [dictFind] at h₁
  | cons p rest ih =>
    simp only [List.map_cons, List.nodup_cons] at hv
    by_cases hk₁ : p.1 = k₁ <;> by_cases hk₂ : p.1 = k₂
    · rw [← hk₁, ← hk₂]
    · exfalso
      simp [dictFind, hk₁] at h₁
      simp [dictFind, hk₂] at h₂
      exact hv.1 (h₁ ▸ List.mem_map.mpr ⟨(k₂, v), mem_of_dictFind_eq_some h₂, rfl⟩)
    · exfalso
      simp [dictFind, hk₁] at h₁
      simp [dictFind, hk₂] at h₂
      exact hv.1 (h₂ ▸ List.mem_map.mpr ⟨(k₁, v), mem_of_dictFind_eq_some h₁, rfl⟩)
    · simp [dictFind, hk₁] at h₁
      simp [dictFind, hk₂] at h₂
      exact ih hv.2 h₁ h₂

theorem dictInsert_of_fresh {K α : Type} [DecidableEq K]
    {d : List (K × α)} {k : K} (v : α) (h : k ∉ d.map Prod.fst) :
    dictInsert d k v = d ++ [(k, v)] := by
  have hany : ¬ (d.any (fun p => p.1 = k) = true) := by
    simp only [List.any_eq_true, decide_eq_true_eq]
    rintro ⟨x, hx, hxk⟩
    exact h (List.mem_map.mpr ⟨x, hx, hxk⟩)
  simp [dictInsert, hany]

theorem mem_dictInsert {K α : Type} [DecidableEq K]
    {d : List (K × α)} {k : K} {v : α} {q : K × α}
    (h : q ∈ dictInsert d k v) : q ∈ d ∨ q = (k, v) := by
  unfold dictInsert at h
  by_cases hc : d.any (fun p => p.1 = k) = true
  · rw [if_pos hc] at h
    obtain ⟨p, hp, hpq⟩ := List.mem_map.mp h
    by_cases hpk : p.1 = k
    · right
      rw [← hpq, if_pos hpk]
    · left
      rw [← hpq, if_neg hpk]
      exact hp
  · rw [if_neg hc] at h
    rcases List.mem_append.mp h with h1 | h2
    · exact Or.inl h1
    · exact Or.inr (by simpa using h2)

/-! ## Characterization of the key remapping -/

open ModelMultiLayerEncoder

theorem mapKeysAux_snd (km : List (String × String)) :
    ∀ (sd racc : List (String × Tensor)) (uacc : List String),
    (mapKeysAux km sd racc uacc).2 =
      uacc ++ (sd.map Prod.fst).filter (fun k => (dictFind km k).isNone) := by
  intro sd
  induction sd with
  | nil => intro racc uacc; simp [mapKeysAux]
  | cons p rest ih =>
    intro racc uacc
    cases h : dictFind km p.1 with
    | none =>
      simp only [mapKeysAux, h]
      rw [ih]
      simp only [List.map_cons, List.filter_cons, h, Option.isNone_none,
        if_pos trivial, List.append_assoc]
      rfl
    | some k' =>
      simp only [mapKeysAux, h]
      rw [ih]
      simp [List.filter_cons, h]

theorem mapKeysAux_origin (km : List (String × String)) :
    ∀ (sd racc : List (String × Tensor)) (uacc : List String)
      (q : String × Tensor), q ∈ (mapKeysAux km sd racc uacc).1 →
    q ∈ racc ∨ ∃ p ∈ sd, dictFind km p.1 = some q.1 ∧ p.2 = q.2 := by
  intro sd
  induction sd with
  | nil =>
    intro racc uacc q hq
    exact Or.inl hq
  | cons p rest ih =>
    intro racc uacc q hq
    cases h : dictFind km p.1 with
    | none =>
      simp only [mapKeysAux, h] at hq
      rcases ih racc (uacc ++ [p.1]) q hq with h1 | ⟨p', hp', hfind, hval⟩
      · exact Or.inl h1
      · exact Or.inr ⟨p', List.mem_cons_of_mem _ hp', hfind, hval⟩
    | some k' =>
      simp only [mapKeysAux, h] at hq
      rcases ih (dictInsert racc k' p.2) uacc q hq with h1 | ⟨p', hp', hfind, hval⟩
      · rcases mem_dictInsert h1 with h2 | h2
        · exact Or.inl h2
        · refine Or.inr ⟨p, List.mem_cons_self _ _, ?_, ?_⟩
          · simp [h, h2]
          · simp [h2]
      · exact Or.inr ⟨p', List.mem_cons_of_mem _ hp', hfind, hval⟩

theorem map_state_dict_keys_origin (e : ModelMultiLayerEncoder)
    (sd : List (String × Tensor)) (q : String × Tensor)
    (hq : q ∈ (e.map_state_dict_keys sd).1) :
    ∃ k, (k, q.2) ∈ sd ∧ dictFind e.state_dict_key_map k = some q.1 := by
  rcases mapKeysAux_origin e.state_dict_key_map sd [] [] q hq with h1 | h2
  · exact absurd h1 (List.not_mem_nil q)
  · obtain ⟨p, hp, hfind, hval⟩ := h2
    refine ⟨p.1, ?_, hfind⟩
    rw [← hval]
    exact hp

theorem mapKeysAux_fst (km : List (String × String)) :
    ∀ (sd racc : List (String × Tensor)) (uacc : List String),
    ((mappedPart km sd).map Prod.fst).Nodup →
    (∀ k ∈ (mappedPart km sd).map Prod.fst, k ∉ racc.map Prod.fst) →
    (mapKeysAux km sd racc uacc).1 = racc ++ mappedPart km sd := by
  intro sd
  induction sd with
  | nil =>
    intro racc uacc _ _
    simp [mapKeysAux, mappedPart]
  | cons p rest ih =>
    intro racc uacc hnd hfresh
    cases h : dictFind km p.1 with
    | none =>
      have hmp : mappedPart km (p :: rest) = mappedPart km rest := by
        simp [mappedPart, List.filter_cons, h]
      rw [hmp] at hnd hfresh
      simp only [mapKeysAux, h]
      rw [ih racc (uacc ++ [p.1]) hnd hfresh, hmp]
    | some k' =>
      have hmp : mappedPart km (p :: rest) = (k', p.2) :: mappedPart km rest := by
        simp [mappedPart, List.filter_cons, h, rewriteKey]
      rw [hmp] at hnd hfresh
      simp only [List.map_cons, List.nodup_cons] at hnd
      have hfk : k' ∉ racc.map Prod.fst := hfresh k' (by simp)
      simp only [mapKeysAux, h]
      rw [dictInsert_of_fresh _ hfk]
      rw [ih (racc ++ [(k', p.2)]) uacc hnd.2 ?fresh]
      · rw [hmp, List.append_assoc]
        rfl
      case fresh =>
        intro k hk
        simp only [List.map_append, List.mem_append, List.map_cons,
          List.mem_singleton, not_or]
        constructor
        · exact hfresh k (by simp [hk])
        · simp only [List.map_nil, List.mem_cons, List.not_mem_nil, or_false]
          intro hkk
          exact hnd.1 (hkk ▸ hk)

theorem mappedPart_keys_nodup {km : List (String × String)}
    (hinj : (km.map Prod.snd).Nodup) :
    ∀ {sd : List (String × Tensor)}, (sd.map Prod.fst).Nodup →
    ((mappedPart km sd).map Prod.fst).Nodup := by
  intro sd
  induction sd with
  | nil =>
    intro _
    simp [mappedPart]
  | cons p rest ih =>
    intro hnd
    simp only [List.map_cons, List.nodup_cons] at hnd
    cases h : dictFind km p.1 with
    | none =>
      have hmp : mappedPart km (p :: rest) = mappedPart km rest := by
        simp [mappedPart, List.filter_cons, h]
      rw [hmp]
      exact ih hnd.2
    | some k' =>
      have hmp : mappedPart km (p :: rest) = (k', p.2) :: mappedPart km rest := by
        simp [mappedPart, List.filter_cons, h, rewriteKey]
      rw [hmp]
      simp only [List.map_cons, List.nodup_cons]
      refine ⟨?_, ih hnd.2⟩
      intro hk
      simp only [mappedPart, List.map_map] at hk
      obtain ⟨q, hq, hqk⟩ := List.mem_map.mp hk
      have hq' := List.mem_filter.mp hq
      cases h2 : dictFind km q.1 with
      | none => simp [h2] at hq'
      | some k'' =>
        have hk'' : k'' = k' := by
          have := hqk
          simp only [Function.comp, rewriteKey, h2, Option.getD_some] at this
          exact this
        have hpq : p.1 = q.1 := dictFind_injective hinj h (hk'' ▸ h2)
        exact hnd.1 (hpq ▸ List.mem_map.mpr ⟨q, hq'.1, rfl⟩)

theorem map_state_dict_keys_snd (e : ModelMultiLayerEncoder)
    (sd : List (String × Tensor)) :
    (e.map_state_dict_keys sd).2 =
      (sd.map Prod.fst).filter (fun k => (dictFind e.state_dict_key_map k).isNone) := by
  simpa using mapKeysAux_snd e.state_dict_key_map sd [] []

theorem map_state_dict_keys_fst (e : ModelMultiLayerEncoder)
    (sd : List (String × Tensor))
    (hinj : (e.state_dict_key_map.map Prod.snd).Nodup)
    (hsd : (sd.map Prod.fst).Nodup) :
    (e.map_state_dict_keys sd).1 = mappedPart e.state_dict_key_map sd := by
  have hnd := mappedPart_keys_nodup hinj hsd
  simpa using mapKeysAux_fst e.state_dict_key_map sd [] []
    hnd (by simp)

/-! ## Lemmas about the load routines -/

theorem superLoad_strict_error {ownKeys : List String}
    {params sd : List (String × Tensor)}
    (h : superMissing ownKeys sd ≠ [] ∨ superUnexpected ownKeys sd ≠ []) :
    superLoadStateDict ownKeys params sd true =
      Except.error "Error(s) in loading state_dict" := by
  unfold superLoadStateDict
  rw [if_pos ⟨rfl, h⟩]

theorem superLoad_nonstrict {ownKeys : List String}
    {params sd : List (String × Tensor)} :
    superLoadStateDict ownKeys params sd false =
      Except.ok (superParams params sd,
        ⟨superMissing ownKeys sd, superUnexpected ownKeys sd⟩) := by
  unfold superLoadStateDict
  rw [if_neg]
  rintro ⟨hfalse, -⟩
  exact Bool.false_ne_true hfalse

theorem load_flags_of_ok {e : ModelMultiLayerEncoder}
    {sd : List (String × Tensor)} {s m : Bool} {fw : String}
    {keys : IncompatibleKeys}
    (h : (e.load_state_dict sd s m fw).2 = Except.ok keys) :
    (e.load_state_dict sd s m fw).1.pretrained = true
    ∧ (e.load_state_dict sd s m fw).1.framework = fw := by
  cases hsup : superLoadStateDict e.ownKeys e.params
      (if m then (e.map_state_dict_keys sd).1 else sd) s with
  | error msg => simp [load_state_dict, hsup] at h
  | ok pr =>
    obtain ⟨np, ks⟩ := pr
    simp [load_state_dict, hsup]

theorem load_keyMap_eq (e : ModelMultiLayerEncoder)
    (sd : List (String × Tensor)) (s m : Bool) (fw : String) :
    (e.load_state_dict sd s m fw).1.state_dict_key_map = e.state_dict_key_map := by
  cases hsup : superLoadStateDict e.ownKeys e.params
      (if m then (e.map_state_dict_keys sd).1 else sd) s with
  | error msg => simp [load_state_dict, hsup]
  | ok pr =>
    obtain ⟨np, ks⟩ := pr
    simp [load_state_dict, hsup]

theorem from_url_keyMap_eq (e : ModelMultiLayerEncoder)
    (stateDictUrl : String → Except String String)
    (download : String → List (String × Tensor))
    (fw : String) (s m : Bool) :
    (e.load_state_dict_from_url stateDictUrl download fw s m).1.state_dict_key_map
      = e.state_dict_key_map := by
  cases hu : stateDictUrl fw with
  | error msg => simp [load_state_dict_from_url, hu]
  | ok url => simp [load_state_dict_from_url, hu, load_keyMap_eq]

theorem load_state_dict_mapNames (e : ModelMultiLayerEncoder)
    (sd : List (String × Tensor)) (strict : Bool) (fw : String) :
    e.load_state_dict sd strict true fw =
      match superLoadStateDict e.ownKeys e.params (e.map_state_dict_keys sd).1
          strict with
      | Except.error msg => (e, Except.error msg)
      | Except.ok (np, keys) =>
        ({ e with params := np, pretrained := true, framework := fw },
         Except.ok ⟨keys.missing_keys,
           keys.unexpected_keys ++ (e.map_state_dict_keys sd).2⟩) := rfl

/-! ## Claims -/

/-- C1, counterexample: with the name map `{"a": "X", "b": "X"}` (a legal
Python dictionary, since only keys must be distinct) and the weight
dictionary `{"a": 1, "b": 2}`, whose key set is exactly the domain of the
map, `_map_state_dict_keys` returns a dictionary with one entry instead of
two: the second assignment to the rewritten key `"X"` overwrites the first,
so the entry count and the value `1` are not preserved. -/
theorem map_state_dict_keys_same_size_cex :
    (ModelMultiLayerEncoder.mk false "torch" [("a", "X"), ("b", "X")] []
        []).map_state_dict_keys [("a", (1 : Tensor)), ("b", 2)]
      = ([("X", 2)], [])
    ∧ ([("a", (1 : Tensor)), ("b", 2)] : List (String × Tensor)).map Prod.fst
      = ([("a", "X"), ("b", "X")] : List (String × String)).map Prod.fst
    ∧ ([("X", (2 : Tensor))] : List (String × Tensor)).length
      ≠ ([("a", (1 : Tensor)), ("b", 2)] : List (String × Tensor)).length := by
  decide

/-- C1 (amended with injectivity of the name map, which the counterexample
forces): for every weight dictionary whose key set is exactly the domain of
an injective name map, `_map_state_dict_keys` returns the dictionary with
every key replaced by its image under the map, hence with the same number of
entries and the same values in the same order, together with an empty
unexpected-keys list. -/
theorem map_state_dict_keys_exact_domain (e : ModelMultiLayerEncoder)
    (sd : List (String × Tensor))
    (hsd : (sd.map Prod.fst).Nodup)
    (hinj : (e.state_dict_key_map.map Prod.snd).Nodup)
    (hdom : ∀ k, k ∈ sd.map Prod.fst ↔ k ∈ e.state_dict_key_map.map Prod.fst) :
    (e.map_state_dict_keys sd).1 = sd.map (rewriteKey e.state_dict_key_map)
    ∧ (e.map_state_dict_keys sd).1.length = sd.length
    ∧ (e.map_state_dict_keys sd).1.map Prod.snd = sd.map Prod.snd
    ∧ (e.map_state_dict_keys sd).2 = [] := by
  have hall : ∀ p ∈ sd, (dictFind e.state_dict_key_map p.1).isSome := by
    intro p hp
    rw [dictFind_isSome_iff]
    exact (hdom p.1).mp (List.mem_map.mpr ⟨p, hp, rfl⟩)
  have h1 : (e.map_state_dict_keys sd).1
      = sd.map (rewriteKey e.state_dict_key_map) := by
    rw [map_state_dict_keys_fst e sd hinj hsd]
    unfold mappedPart
    rw [List.filter_eq_self.mpr hall]
  refine ⟨h1, ?_, ?_, ?_⟩
  · rw [h1, List.length_map]
  · rw [h1, List.map_map]
    rfl
  · rw [map_state_dict_keys_snd]
    apply List.filter_eq_nil_iff.mpr
    intro k hk
    have hs : (dictFind e.state_dict_key_map k).isSome := by
      rw [dictFind_isSome_iff]
      exact (hdom k).mp hk
    cases h2 : dictFind e.state_dict_key_map k with
    | none => rw [h2] at hs; exact absurd hs (by simp)
    | some k' => simp [h2]

/-- C1 witness: on the injective name map `{"a": "A", "b": "B"}` and the
weight dictionary `{"a": 1, "b": 2}` the remapped dictionary keeps both
entries and the unexpected list is empty. -/
theorem map_state_dict_keys_exact_domain_witness :
    ((ModelMultiLayerEncoder.mk false "torch" [("a", "A"), ("b", "B")] []
        []).map_state_dict_keys [("a", (1 : Tensor)), ("b", 2)]).1.length
      = ([("a", (1 : Tensor)), ("b", 2)] : List (String × Tensor)).length
    ∧ ((ModelMultiLayerEncoder.mk false "torch" [("a", "A"), ("b", "B")] []
        []).map_state_dict_keys [("a", (1 : Tensor)), ("b", 2)]).2 = [] :=
  ⟨(map_state_dict_keys_exact_domain
      (ModelMultiLayerEncoder.mk false "torch" [("a", "A"), ("b", "B")] [] [])
      [("a", (1 : Tensor)), ("b", 2)] (by decide) (by decide)
      (fun k => Iff.rfl)).2.1,
   (map_state_dict_keys_exact_domain
      (ModelMultiLayerEncoder.mk false "torch" [("a", "A"), ("b", "B")] [] [])
      [("a", (1 : Tensor)), ("b", 2)] (by decide) (by decide)
      (fun k => Iff.rfl)).2.2.2⟩

/-- C2, counterexample: with the non-injective name map
`{"a": "X", "b": "X"}`, the mapped key `"a"` of `{"a": 1, "b": 2}` does not
keep its value: the remapped dictionary is `{"X": 2}`, so the entry
`("X", 1)` coming from `"a"` has been overwritten and its value is not
carried over. -/
theorem map_state_dict_keys_value_cex :
    (ModelMultiLayerEncoder.mk false "torch" [("a", "X"), ("b", "X")] []
        []).map_state_dict_keys [("a", (1 : Tensor)), ("b", 2)]
      = ([("X", 2)], [])
    ∧ dictFind [("a", "X"), ("b", "X")] "a" = some "X"
    ∧ (("a", (1 : Tensor)) ∈ ([("a", (1 : Tensor)), ("b", 2)] :
        List (String × Tensor)))
    ∧ ¬ (("X", (1 : Tensor)) ∈ ([("X", (2 : Tensor))] :
        List (String × Tensor))) := by
  decide

/-- C2 (amended: value carry-over of mapped keys holds under an injective
name map, which the counterexample forces; exclusion of unmapped keys and the
encounter order of the unexpected list hold unconditionally, for every name
map): unmapped keys are collected, in encounter order, as the unexpected
list; every entry of the remapped dictionary originates from a mapped entry
with its value unchanged; and, provided the name map is injective, every
mapped entry reappears under its image with its value unchanged. -/
theorem map_state_dict_keys_unexpected_and_values (e : ModelMultiLayerEncoder)
    (sd : List (String × Tensor))
    (hsd : (sd.map Prod.fst).Nodup) :
    (e.map_state_dict_keys sd).2 =
      (sd.map Prod.fst).filter
        (fun k => (dictFind e.state_dict_key_map k).isNone)
    ∧ (∀ q ∈ (e.map_state_dict_keys sd).1,
        ∃ k, (k, q.2) ∈ sd ∧ dictFind e.state_dict_key_map k = some q.1)
    ∧ ((e.state_dict_key_map.map Prod.snd).Nodup →
        ∀ k v k', (k, v) ∈ sd → dictFind e.state_dict_key_map k = some k' →
          (k', v) ∈ (e.map_state_dict_keys sd).1) := by
  refine ⟨map_state_dict_keys_snd e sd, ?_, ?_⟩
  · intro q hq
    exact map_state_dict_keys_origin e sd q hq
  · intro hinj k v k' hkv hfind
    rw [map_state_dict_keys_fst e sd hinj hsd]
    unfold mappedPart
    apply List.mem_map.mpr
    refine ⟨(k, v), List.mem_filter.mpr ⟨hkv, by simp [hfind]⟩, ?_⟩
    simp [rewriteKey, hfind]

/-- C2 witness: with the name map `{"a": "A"}` and weight dictionary
`{"a": 1, "b": 2}`, the unexpected list is the encounter-order filter of the
unmapped keys (here `["b"]`) and the mapped entry `("a", 1)` reappears as
`("A", 1)`. -/
theorem map_state_dict_keys_unexpected_witness :
    ((ModelMultiLayerEncoder.mk false "torch" [("a", "A")] []
        []).map_state_dict_keys [("a", (1 : Tensor)), ("b", 2)]).2 =
      (([("a", (1 : Tensor)), ("b", 2)] : List (String × Tensor)).map
        Prod.fst).filter (fun k => (dictFind [("a", "A")] k).isNone)
    ∧ (("A", (1 : Tensor)) ∈
        ((ModelMultiLayerEncoder.mk false "torch" [("a", "A")] []
          []).map_state_dict_keys [("a", (1 : Tensor)), ("b", 2)]).1) :=
  ⟨(map_state_dict_keys_unexpected_and_values
      (ModelMultiLayerEncoder.mk false "torch" [("a", "A")] [] [])
      [("a", (1 : Tensor)), ("b", 2)] (by decide)).1,
   (map_state_dict_keys_unexpected_and_values
      (ModelMultiLayerEncoder.mk false "torch" [("a", "A")] [] [])
      [("a", (1 : Tensor)), ("b", 2)] (by decide)).2.2
      (by decide) "a" 1 "A" (by decide) (by decide)⟩

/-- C3, counterexample: with name map `{"a": "A", "c": "C"}`, own parameter
key `"A"` and weight dictionary `{"a": 1, "b": 2, "c": 3}`, the local
remapping step detects `["b"]` and the underlying routine reports `["C"]`,
yet a non-strict `load_state_dict` with name mapping returns the
unexpected-keys list `["C", "b"]` — the routine's keys come first and the
locally detected ones are appended after them, not the other way round. -/
theorem load_unexpected_order_cex :
    ((ModelMultiLayerEncoder.mk false "none" [("a", "A"), ("c", "C")] ["A"]
        [("A", 0)]).load_state_dict [("a", (1 : Tensor)), ("b", 2), ("c", 3)]
        false true "f").2
      = Except.ok ⟨[], ["C", "b"]⟩
    ∧ ((ModelMultiLayerEncoder.mk false "none" [("a", "A"), ("c", "C")] ["A"]
        [("A", 0)]).map_state_dict_keys
        [("a", (1 : Tensor)), ("b", 2), ("c", 3)]).2 = ["b"]
    ∧ ModelMultiLayerEncoder.superUnexpected ["A"]
        ((ModelMultiLayerEncoder.mk false "none" [("a", "A"), ("c", "C")] ["A"]
          [("A", 0)]).map_state_dict_keys
          [("a", (1 : Tensor)), ("b", 2), ("c", 3)]).1 = ["C"]
    ∧ (["C", "b"] : List String) ≠ ["b"] ++ ["C"] :=
  ⟨rfl, rfl, rfl, by decide⟩

/-- C3 (amended: the order is the opposite of the one claimed): for every
successful call to `load_state_dict` with `map_names` enabled, the
unexpected-keys field of the result lists first the keys reported by the
underlying load routine and appends after them the keys detected by the local
remapping step. -/
theorem load_unexpected_order (e : ModelMultiLayerEncoder)
    (sd : List (String × Tensor)) (strict : Bool) (fw : String)
    (np : List (String × Tensor)) (keys : IncompatibleKeys)
    (h : superLoadStateDict e.ownKeys e.params (e.map_state_dict_keys sd).1
        strict = Except.ok (np, keys)) :
    (e.load_state_dict sd strict true fw).2 =
      Except.ok ⟨keys.missing_keys,
        keys.unexpected_keys ++ (e.map_state_dict_keys sd).2⟩ := by
  rw [load_state_dict_mapNames, h]

/-- C3 witness: a concrete non-strict load where the routine reports nothing
and the local step detects `["b"]`, giving unexpected-keys `["b"]`. -/
theorem load_unexpected_order_witness :
    ModelMultiLayerEncoder.superLoadStateDict ["A"] [("A", (0 : Tensor))]
        ((ModelMultiLayerEncoder.mk false "none" [("a", "A")] ["A"]
          [("A", 0)]).map_state_dict_keys [("a", (1 : Tensor)), ("b", 2)]).1
        false
      = Except.ok ([("A", (1 : Tensor))], ⟨[], []⟩)
    ∧ ((ModelMultiLayerEncoder.mk false "none" [("a", "A")] ["A"]
        [("A", 0)]).load_state_dict [("a", (1 : Tensor)), ("b", 2)] false true
        "f").2
      = Except.ok ⟨[], ["b"]⟩ :=
  ⟨rfl,
   load_unexpected_order
     (ModelMultiLayerEncoder.mk false "none" [("a", "A")] ["A"] [("A", 0)])
     [("a", (1 : Tensor)), ("b", 2)] false "f" [("A", (1 : Tensor))] ⟨[], []⟩
     rfl⟩

/-- C4: `select_url` returns the URL associated with a present key; on an
absent key it fails with the "no URL" error whose message contains the
rendering of the key by the caller-supplied formatting function, defaulting
to plain string conversion; in particular
`select_url {"a": "http://x"} "a"` returns `"http://x"` and
`select_url {"a": "http://x"} "b"` fails with a message containing `"b"`. -/
theorem select_url_spec :
    (∀ (urls : List (String × String)) (key u : String)
        (fmt : Option (String → String)),
      dictFind urls key = some u → select_url urls key fmt = Except.ok u)
    ∧ (∀ (urls : List (String × String)) (key : String) (f : String → String),
      dictFind urls key = none →
        select_url urls key (some f)
          = Except.error ("No URL is available for\n\n" ++ f key))
    ∧ (∀ (urls : List (String × String)) (key : String),
      dictFind urls key = none →
        select_url urls key none
          = Except.error ("No URL is available for\n\n" ++ toString key))
    ∧ select_url [("a", "http://x")] "a" none = Except.ok "http://x"
    ∧ (∃ pre post, select_url [("a", "http://x")] "b" none
        = Except.error (pre ++ "b" ++ post)) := by
  refine ⟨?_, ?_, ?_, ?_, ?_⟩
  · intro urls key u fmt h
    simp [select_url, h]
  · intro urls key f h
    simp [select_url, h]
  · intro urls key h
    simp [select_url, h]
  · rfl
  · exact ⟨"No URL is available for\n\n", "", rfl⟩

/-- C4 witness: the present-key clause applied at the concrete mapping of the
spec's example. -/
theorem select_url_spec_witness :
    dictFind [("a", "http://x")] "a" = some "http://x"
    ∧ select_url [("a", "http://x")] "a" none = Except.ok "http://x" :=
  ⟨by decide,
   select_url_spec.1 [("a", "http://x")] "a" "http://x" none (by decide)⟩

/-- C5: for every weight dictionary that after remapping is missing a
required key of the encoder, `load_state_dict` with `strict` raises the
incompatible-keys error, while with `strict` disabled the same call succeeds
and reports that key in the `missing_keys` field of the result. -/
theorem load_strict_missing (e : ModelMultiLayerEncoder)
    (sd : List (String × Tensor)) (fw : String) (k : String)
    (hk : k ∈ e.ownKeys)
    (hmiss : dictFind (e.map_state_dict_keys sd).1 k = none) :
    (e.load_state_dict sd true true fw).2
      = Except.error "Error(s) in loading state_dict"
    ∧ (e.load_state_dict sd false true fw).2 =
        Except.ok ⟨superMissing e.ownKeys (e.map_state_dict_keys sd).1,
          superUnexpected e.ownKeys (e.map_state_dict_keys sd).1
            ++ (e.map_state_dict_keys sd).2⟩
    ∧ k ∈ superMissing e.ownKeys (e.map_state_dict_keys sd).1 := by
  have hmem : k ∈ superMissing e.ownKeys (e.map_state_dict_keys sd).1 := by
    unfold superMissing
    exact List.mem_filter.mpr ⟨hk, by simp [hmiss]⟩
  have hne : superMissing e.ownKeys (e.map_state_dict_keys sd).1 ≠ [] :=
    List.ne_nil_of_mem hmem
  refine ⟨?_, ?_, hmem⟩
  · rw [load_state_dict_mapNames, superLoad_strict_error (Or.inl hne)]
  · rw [load_state_dict_mapNames, superLoad_nonstrict]

/-- C5 witness: the encoder requires key `"A"`; the empty dictionary yields a
strict failure and a non-strict success reporting `"A"` missing. -/
theorem load_strict_missing_witness :
    ("A" ∈ (ModelMultiLayerEncoder.mk false "none" [] ["A"]
        [("A", (0 : Tensor))]).ownKeys)
    ∧ ((ModelMultiLayerEncoder.mk false "none" [] ["A"]
        [("A", (0 : Tensor))]).load_state_dict [] true true "f").2
      = Except.error "Error(s) in loading state_dict"
    ∧ "A" ∈ ModelMultiLayerEncoder.superMissing
        (ModelMultiLayerEncoder.mk false "none" [] ["A"]
          [("A", (0 : Tensor))]).ownKeys
        ((ModelMultiLayerEncoder.mk false "none" [] ["A"]
          [("A", (0 : Tensor))]).map_state_dict_keys []).1 :=
  ⟨by decide,
   (load_strict_missing
     (ModelMultiLayerEncoder.mk false "none" [] ["A"] [("A", (0 : Tensor))])
     [] "f" "A" (by decide) rfl).1,
   (load_strict_missing
     (ModelMultiLayerEncoder.mk false "none" [] ["A"] [("A", (0 : Tensor))])
     [] "f" "A" (by decide) rfl).2.2⟩

/-- C6: after a successful `load_state_dict_from_url` call, the encoder's
`pretrained` flag is true and its `framework` field equals the identifier
passed in, regardless of prior state. -/
theorem load_from_url_sets_flags (e : ModelMultiLayerEncoder)
    (stateDictUrl : String → Except String String)
    (download : String → List (String × Tensor)) (fw : String) (s m : Bool)
    (h : (e.load_state_dict_from_url stateDictUrl download fw s m).2
        = Except.ok ()) :
    (e.load_state_dict_from_url stateDictUrl download fw s m).1.pretrained
      = true
    ∧ (e.load_state_dict_from_url stateDictUrl download fw s m).1.framework
      = fw := by
  cases hu : stateDictUrl fw with
  | error msg => simp [load_state_dict_from_url, hu] at h
  | ok url =>
    cases hl : (e.load_state_dict (download url) s m fw).2 with
    | error msg => simp [load_state_dict_from_url, hu, hl] at h
    | ok keys =>
      have hf := load_flags_of_ok hl
      simp only [load_state_dict_from_url, hu]
      exact hf

/-- C6 witness: a trivial encoder with no parameters loads the empty
downloaded dictionary successfully and ends pretrained with the requested
framework recorded. -/
theorem load_from_url_sets_flags_witness :
    ((ModelMultiLayerEncoder.mk false "none" [] []
        []).load_state_dict_from_url (fun _ => Except.ok "u") (fun _ => [])
        "caffe" true true).2 = Except.ok ()
    ∧ ((ModelMultiLayerEncoder.mk false "none" [] []
        []).load_state_dict_from_url (fun _ => Except.ok "u") (fun _ => [])
        "caffe" true true).1.framework = "caffe" :=
  ⟨rfl,
   (load_from_url_sets_flags
     (ModelMultiLayerEncoder.mk false "none" [] [] [])
     (fun _ => Except.ok "u") (fun _ => []) "caffe" true true rfl).2⟩

/-- C7: the framework label does not interfere with numeric behavior — two
`load_state_dict` runs on encoders that agree on everything but the stored
framework field, called with possibly different framework arguments, produce
the same remapped dictionary, the same missing/unexpected-keys outcome, and
the same parameter values and pretrained flag; only the framework field may
differ. -/
theorem load_framework_noninterference (e₁ e₂ : ModelMultiLayerEncoder)
    (sd : List (String × Tensor)) (s m : Bool) (fw₁ fw₂ : String)
    (hkm : e₁.state_dict_key_map = e₂.state_dict_key_map)
    (hok : e₁.ownKeys = e₂.ownKeys)
    (hp : e₁.params = e₂.params)
    (hpre : e₁.pretrained = e₂.pretrained) :
    e₁.map_state_dict_keys sd = e₂.map_state_dict_keys sd
    ∧ (e₁.load_state_dict sd s m fw₁).2 = (e₂.load_state_dict sd s m fw₂).2
    ∧ (e₁.load_state_dict sd s m fw₁).1.params
      = (e₂.load_state_dict sd s m fw₂).1.params
    ∧ (e₁.load_state_dict sd s m fw₁).1.pretrained
      = (e₂.load_state_dict sd s m fw₂).1.pretrained
    ∧ (e₁.load_state_dict sd s m fw₁).1.state_dict_key_map
      = (e₂.load_state_dict sd s m fw₂).1.state_dict_key_map
    ∧ (e₁.load_state_dict sd s m fw₁).1.ownKeys
      = (e₂.load_state_dict sd s m fw₂).1.ownKeys := by
  have hm : e₁.map_state_dict_keys sd = e₂.map_state_dict_keys sd := by
    unfold map_state_dict_keys
    rw [hkm]
  refine ⟨hm, ?_⟩
  simp only [load_state_dict]
  rw [hok, hp, hm]
  cases hs : superLoadStateDict e₂.ownKeys e₂.params
      (if m then (e₂.map_state_dict_keys sd).1 else sd) s with
  | error msg => simp [hp, hpre, hkm, hok]
  | ok pr =>
    obtain ⟨np, ks⟩ := pr
    simp [hkm, hok]

/-- C7 witness: two encoders differing only in the stored framework field,
loaded with different framework arguments, agree on result and parameters. -/
theorem load_framework_noninterference_witness :
    ((ModelMultiLayerEncoder.mk false "f1" [("a", "A")] ["A"]
        [("A", (0 : Tensor))]).load_state_dict [("a", (7 : Tensor))] true true
        "x").2
      = ((ModelMultiLayerEncoder.mk false "f2" [("a", "A")] ["A"]
        [("A", (0 : Tensor))]).load_state_dict [("a", (7 : Tensor))] true true
        "y").2
    ∧ ((ModelMultiLayerEncoder.mk false "f1" [("a", "A")] ["A"]
        [("A", (0 : Tensor))]).load_state_dict [("a", (7 : Tensor))] true true
        "x").1.params
      = ((ModelMultiLayerEncoder.mk false "f2" [("a", "A")] ["A"]
        [("A", (0 : Tensor))]).load_state_dict [("a", (7 : Tensor))] true true
        "y").1.params :=
  ⟨(load_framework_noninterference
      (ModelMultiLayerEncoder.mk false "f1" [("a", "A")] ["A"]
        [("A", (0 : Tensor))])
      (ModelMultiLayerEncoder.mk false "f2" [("a", "A")] ["A"]
        [("A", (0 : Tensor))])
      [("a", (7 : Tensor))] true true "x" "y" rfl rfl rfl rfl).2.1,
   (load_framework_noninterference
      (ModelMultiLayerEncoder.mk false "f1" [("a", "A")] ["A"]
        [("A", (0 : Tensor))])
      (ModelMultiLayerEncoder.mk false "f2" [("a", "A")] ["A"]
        [("A", (0 : Tensor))])
      [("a", (7 : Tensor))] true true "x" "y" rfl rfl rfl rfl).2.2.1⟩

/-- C8: the name map is fixed at construction from the model-specific table
and no operation changes it: construction stores exactly the collected table
(also when it immediately loads builtin weights), and both `load_state_dict`
and `load_state_dict_from_url` leave it untouched. -/
theorem state_dict_key_map_immutable (km : List (String × String))
    (owns : List String) (ps : List (String × Tensor)) (pre : Bool)
    (fw fw₂ : String) (stateDictUrl : String → Except String String)
    (download : String → List (String × Tensor))
    (e : ModelMultiLayerEncoder) (sd : List (String × Tensor)) (s m : Bool) :
    (ModelMultiLayerEncoder.construct km owns ps pre fw stateDictUrl
        download).state_dict_key_map = km
    ∧ (e.load_state_dict sd s m fw₂).1.state_dict_key_map
      = e.state_dict_key_map
    ∧ (e.load_state_dict_from_url stateDictUrl download fw₂ s m).1.state_dict_key_map
      = e.state_dict_key_map := by
  refine ⟨?_, load_keyMap_eq e sd s m fw₂,
    from_url_keyMap_eq e stateDictUrl download fw₂ s m⟩
  unfold construct
  cases pre with
  | false => simp
  | true => simp [from_url_keyMap_eq]

/-- C9: when the underlying load routine raises during a strict
`load_state_dict` call, the exception propagates before the field updates, so
the encoder — in particular its `pretrained` flag and `framework` field — is
left exactly as it was. -/
theorem failed_load_preserves_state (e : ModelMultiLayerEncoder)
    (sd : List (String × Tensor)) (m : Bool) (fw msg : String)
    (h : (e.load_state_dict sd true m fw).2 = Except.error msg) :
    (e.load_state_dict sd true m fw).1.pretrained = e.pretrained
    ∧ (e.load_state_dict sd true m fw).1.framework = e.framework
    ∧ (e.load_state_dict sd true m fw).1 = e := by
  cases hsup : superLoadStateDict e.ownKeys e.params
      (if m then (e.map_state_dict_keys sd).1 else sd) true with
  | error msg₂ => simp [load_state_dict, hsup]
  | ok pr =>
    obtain ⟨np, ks⟩ := pr
    simp [load_state_dict, hsup] at h

/-- C9 witness: a strict load of the empty dictionary into an encoder that
requires key `"A"` fails and leaves the encoder unchanged. -/
theorem failed_load_preserves_state_witness :
    ((ModelMultiLayerEncoder.mk false "orig" [] ["A"]
        [("A", (0 : Tensor))]).load_state_dict [] true true "f").2
      = Except.error "Error(s) in loading state_dict"
    ∧ ((ModelMultiLayerEncoder.mk false "orig" [] ["A"]
        [("A", (0 : Tensor))]).load_state_dict [] true true "f").1
      = ModelMultiLayerEncoder.mk false "orig" [] ["A"] [("A", (0 : Tensor))] :=
  ⟨rfl,
   (failed_load_preserves_state
     (ModelMultiLayerEncoder.mk false "orig" [] ["A"] [("A", (0 : Tensor))])
     [] true "f" "Error(s) in loading state_dict" rfl).2.2⟩

/-- C10: every successful `load_state_dict` call — for any `strict` and
`map_names` flags — sets the `pretrained` flag to true and overwrites the
`framework` field with the framework argument; the argument defaults to
`"unknown"`, as `load_state_dict_defaults` records. -/
theorem load_sets_pretrained_and_framework (e : ModelMultiLayerEncoder)
    (sd : List (String × Tensor)) (s m : Bool) (fw : String)
    (keys : IncompatibleKeys)
    (h : (e.load_state_dict sd s m fw).2 = Except.ok keys) :
    (e.load_state_dict sd s m fw).1.pretrained = true
    ∧ (e.load_state_dict sd s m fw).1.framework = fw
    ∧ e.load_state_dict_defaults sd = e.load_state_dict sd true true "unknown" :=
  ⟨(load_flags_of_ok h).1, (load_flags_of_ok h).2, rfl⟩

/-- C10 witness: a successful non-mapping, non-strict load on a trivial
encoder ends pretrained with the passed framework recorded. -/
theorem load_sets_pretrained_and_framework_witness :
    ((ModelMultiLayerEncoder.mk false "orig" [] [] []).load_state_dict []
        false false "vgg").2 = Except.ok ⟨[], []⟩
    ∧ ((ModelMultiLayerEncoder.mk false "orig" [] [] []).load_state_dict []
        false false "vgg").1.framework = "vgg" :=
  ⟨rfl,
   (load_sets_pretrained_and_framework
     (ModelMultiLayerEncoder.mk false "orig" [] [] []) [] false false "vgg"
     ⟨[], []⟩ rfl).2.1⟩
